import Mathlib

/-!
Shallow embedding of the histolab GTEx example pipeline
(`examples/GTEx/extract_tile_PW_GTEx.py`) and of the histolab data registry
(`src/histolab/data/_registry.py`), with theorems checking the specification claims
for that pipeline.

DataFrames are embedded as lists of rows; a column is a projection function on
rows.  Seeded pseudo-randomness (the numpy `RandomState`) is embedded as a pure,
seed-determined stream: the properties at stake (seed-determinism, that a
shuffle is a permutation, delay bounds) depend only on that shape, not on the
exact numbers numpy draws.
-/

namespace GTEx

/-! ### Pseudo-random primitives (model of the numpy PRNG) -/

/-- One step of a linear congruential generator; models advancing the numpy
PRNG stream.  Any seed-determined stream models `RandomState` faithfully for
the properties proved here. -/
def lcg (n : Nat) : Nat := (1103515245 * n + 12345) % 2147483648

/-- Model of `np.random.randint(lo, hi)`: it draws uniformly from `[lo, hi)` (high
exclusive); the value drawn from stream state `state` is modelled as
`lo + state % (hi - lo)`, which ranges over exactly `[lo, hi)`. -/
def randint (lo hi state : Nat) : Nat := lo + state % (hi - lo)

/-- Pseudorandom sort key attached to position `i` of a list being shuffled
with seed `seed`. -/
def shuffleKey (seed i : Nat) : Nat := lcg (seed + lcg i)

/-- Order on indexed elements by their pseudorandom key. -/
def keyRel (seed : Nat) (a b : Nat × α) : Prop :=
  shuffleKey seed a.1 ≤ shuffleKey seed b.1

instance (seed : Nat) : DecidableRel (keyRel (α := α) seed) :=
  fun _ _ => inferInstanceAs (Decidable (_ ≤ _))

/-- Model of `numpy.random.RandomState(seed).permutation` applied to a list:
a seed-determined permutation, realized by sorting positions by a
pseudorandom key.  The concrete order differs from the MT19937 order numpy
would draw at the same seed; the development therefore relies only on the
two properties the model shares with numpy — the result is a permutation of
the input and depends only on the seed — and no theorem below depends on
the concrete order of a permuted list. -/
def permuteBySeed (seed : Nat) (l : List α) : List α :=
  (l.enum.insertionSort (keyRel seed)).map Prod.snd

/-- Ceiling `⌈q * n⌉` (as a natural number, clamped at 0) computed with integer
arithmetic on the numerator and denominator, so that it reduces in
the kernel: for `d > 0`, `⌈x / d⌉ = -⌊-x / d⌋`. -/
def ceilMulNat (q : ℚ) (n : Nat) : Nat :=
  (-((-(q.num * n)) / (q.den : Int))).toNat

/-! ### `sklearn.model_selection.train_test_split`

The script always calls it with `random_state=seed`.  `random_state=None`
would fall back to the ambient global numpy state, which we thread explicitly
as `ambient` so that independence from it can be stated.  sklearn computes
`n_test = ceil(test_size * n)` for a float `test_size`, takes the first
`n_test` entries of a seeded permutation as the test set and the rest as the
train set.  (The validation that rejects a degenerate split with an empty
side is not modelled; every property proved below is preserved under
restricting the input domain.) -/

/-- Model of `train_test_split(l, test_size=ts, random_state=rs)`: returns
`(train, test)`. -/
def train_test_split (ambient : Nat) (l : List α) (test_size : ℚ)
    (random_state : Option Nat) : List α × List α :=
  let seed := random_state.getD ambient
  let p := permuteBySeed seed l
  let n_test := ceilMulNat test_size l.length
  (p.drop n_test, p.take n_test)

/-! ### `train_test_df_patient_wise` (lines 84-126 of the script) -/

/-- The sorted list of distinct values of a column, as produced by
`pandas.groupby` on that column (group keys are deduplicated and sorted). -/
def sortedUniques [LinearOrder K] (l : List K) : List K :=
  l.dedup.insertionSort (· ≤ ·)

/-- Embedding of `dataset_df.groupby(patient_col)[label_col].unique().apply(list)`:
for each distinct patient (sorted), the list of distinct labels of the rows
of that patient.  (Only the sorted patient index of this table is consumed
downstream, so the enumeration order inside each label list is
immaterial.) -/
def patient_with_labels [LinearOrder K] [DecidableEq L] (dataset_df : List α)
    (patient_col : α → K) (label_col : α → L) : List (K × List L) :=
  (sortedUniques (dataset_df.map patient_col)).map fun p =>
    (p, ((dataset_df.filter fun r => decide (patient_col r = p)).map label_col).dedup)

/-- Line 117: `unique_patients = patient_with_labels.index.values`. -/
def unique_patients [LinearOrder K] [DecidableEq L] (dataset_df : List α)
    (patient_col : α → K) (label_col : α → L) : List K :=
  (patient_with_labels dataset_df patient_col label_col).map Prod.fst

/-- The `(train_patients, test_patients)` pair computed at lines 119-121:
`train_test_split(unique_patients, test_size=test_size, random_state=seed)`.
No `stratify` argument is passed in the source. -/
def patientPartition [LinearOrder K] [DecidableEq L] (ambient : Nat)
    (dataset_df : List α) (patient_col : α → K) (label_col : α → L)
    (test_size : ℚ) (seed : Nat) : List K × List K :=
  train_test_split ambient
    (unique_patients dataset_df patient_col label_col) test_size (some seed)

/-- Embedding of `train_test_df_patient_wise(dataset_df, patient_col, label_col,
test_size, seed)`: returns the two row tables
`dataset_df.loc[dataset_df[patient_col].isin(train_patients)]` and
`dataset_df.loc[dataset_df[patient_col].isin(test_patients)]`. -/
def train_test_df_patient_wise [LinearOrder K] [DecidableEq L] (ambient : Nat)
    (dataset_df : List α) (patient_col : α → K) (label_col : α → L)
    (test_size : ℚ) (seed : Nat) : List α × List α :=
  (dataset_df.filter fun r => decide (patient_col r ∈
      (patientPartition ambient dataset_df patient_col label_col test_size seed).1),
   dataset_df.filter fun r => decide (patient_col r ∈
      (patientPartition ambient dataset_df patient_col label_col test_size seed).2))

/-- The first-listed label of patient `p` in the table: the label of the
first row carrying that patient id (the head of the per-patient label list
built by `patient_with_labels`). -/
def firstLabel [DecidableEq K] (dataset_df : List α) (patient_col : α → K)
    (label_col : α → L) (p : K) : Option L :=
  ((dataset_df.filter fun r => decide (patient_col r = p)).map label_col).head?

/-- Modelled from the spec (§4.5 step 2): the label strata over the unique
patients, keying each patient by its first-listed label. -/
def strataOf [LinearOrder K] [DecidableEq L] (dataset_df : List α)
    (patient_col : α → K) (label_col : α → L) : List (List K) :=
  (dataset_df.map label_col).dedup.map fun lab =>
    (unique_patients dataset_df patient_col label_col).filter fun p =>
      decide (firstLabel dataset_df patient_col label_col p = some lab)

/-- Modelled from the spec (§4.5 step 2): a stratified random split keyed by
the per-patient label puts, within every label stratum, `⌈r·|stratum|⌉` of
the patients of that stratum into the test group (the same rounding the
split applies to the whole patient list). -/
def stratified_test_ok [LinearOrder K] [DecidableEq L] (dataset_df : List α)
    (patient_col : α → K) (label_col : α → L) (test_patients : List K)
    (r : ℚ) : Prop :=
  ∀ s ∈ strataOf dataset_df patient_col label_col,
    (test_patients.countP fun p => decide (p ∈ s)) = ceilMulNat r s.length

instance [LinearOrder K] [DecidableEq L] (dataset_df : List α) (patient_col : α → K)
    (label_col : α → L) (test_patients : List K) (r : ℚ) :
    Decidable (stratified_test_ok dataset_df patient_col label_col test_patients r) :=
  by unfold stratified_test_ok; exact List.decidableBAll _ _

/-- A concrete tile-table row shape used to instantiate the split theorems:
a patient id, a label and a tile number standing for the remaining columns. -/
structure Row where
  patient : Nat
  label : Nat
  tile : Nat
deriving DecidableEq, Repr

/-- A four-row table over patients 1,2,3,4 whose labels pair the patients
into the strata { 1, 2 } and { 3, 4 }. -/
def rowsStrataA : List Row := [⟨1, 0, 0⟩, ⟨2, 0, 0⟩, ⟨3, 1, 0⟩, ⟨4, 1, 0⟩]

/-- The same patient column as `rowsStrataA`, with labels pairing the
patients into the strata { 1, 3 } and { 2, 4 }. -/
def rowsStrataB : List Row := [⟨1, 0, 0⟩, ⟨2, 1, 0⟩, ⟨3, 0, 0⟩, ⟨4, 1, 0⟩]

/-- The same patient column as `rowsStrataA`, with labels pairing the
patients into the strata { 1, 4 } and { 2, 3 }. -/
def rowsStrataC : List Row := [⟨1, 0, 0⟩, ⟨2, 1, 0⟩, ⟨3, 1, 0⟩, ⟨4, 0, 0⟩]

/-! ### Tile filenames and the metadata join (`split_tiles_patient_wise`) -/

/-- Line 168: `f.split("_")[0]`, the part of the filename before the first
occurrence of the separator character, the whole string when absent. -/
def deriveSampleId (f : String) : String :=
  String.mk (f.data.takeWhile fun c => decide (c ≠ '_'))

/-- Embedding of `os.path.splitext(f)[1]` for a bare filename (no directory part): the
suffix starting at the last dot, provided some character before that dot is
not itself a dot (so leading dots never start an extension). -/
def splitextExt (f : String) : String :=
  let cs := f.data
  let dotIdxs := (List.range cs.length).filter fun i => decide (cs.getD i ' ' = '.')
  match dotIdxs.getLast? with
  | none => ""
  | some i =>
    if (cs.take i).any (fun c => decide (c ≠ '.')) then String.mk (cs.drop i) else ""

/-- Lines 162-164: the listing of `tiles_dir` restricted to `.png` files. -/
def tilesFilenames (files : List String) : List String :=
  files.filter fun f => decide (splitextExt f = ".png")

/-- One metadata row: the three columns of the GTEx metadata CSV that the
pipeline reads (`Tissue Sample ID`, `Subject ID`, `Tissue`). -/
structure MetaRow where
  sampleId : String
  subjectId : String
  tissue : String
deriving DecidableEq, Repr

/-- A row of the joined table: a metadata row with the attached
`tile_filename` column, which pandas fills with a null for an unmatched left
row. -/
structure JoinedRow where
  meta : MetaRow
  tile_filename : Option String
deriving DecidableEq, Repr

/-- Lines 172-174:
`metadata_df.join(tiles_filenames_df.set_index("Tissue Sample ID"), on="Tissue Sample ID")`,
a left join keyed on the sample-id column with `metadata_df` on the left:
each metadata row is emitted once per matching tile filename (in tile order),
or once with a null `tile_filename` when no tile matches.  A tile filename
whose derived sample id matches no metadata row appears nowhere in the
result. -/
def joinTiles (metadata : List MetaRow) (tiles : List String) : List JoinedRow :=
  metadata.flatMap fun m =>
    match tiles.filter (fun t => decide (deriveSampleId t = m.sampleId)) with
    | [] => [⟨m, none⟩]
    | ts => ts.map fun t => ⟨m, some t⟩

/-- Embedding of `split_tiles_patient_wise` (lines 129-181) up to the terminal CSV writes:
build the tile-filename table from the directory listing, left-join the
metadata onto it, and split the joined table patient-wise
(`patient_col = "Subject ID"`, `label_col = "Tissue"`). -/
def split_tiles_patient_wise (ambient : Nat) (files : List String)
    (metadata : List MetaRow) (test_size : ℚ) (seed : Nat) :
    List JoinedRow × List JoinedRow :=
  train_test_df_patient_wise ambient (joinTiles metadata (tilesFilenames files))
    (fun j => j.meta.subjectId) (fun j => j.meta.tissue) test_size seed

/-! ### Tile naming (`extract_random_tiles`, lines 69-81) -/

/-- Line 70: the filename stem every tile of a slide starts with,
`f"{slide.name}_"`. -/
def tileStem (slideName : String) : String := slideName ++ "_"

/-- Modelled from the spec: the tile files written by the histolab
`RandomTiler` (whose source is not part of this repository snapshot) are
named with the slide-derived stem followed by an index and coordinate suffix
(§4.3: "persist it as an image file named `{prefix}_{index}`").  The suffix
is kept abstract. -/
def tileFilename (slideName suffix : String) : String := tileStem slideName ++ suffix

/-! ### `download_wsi_gtex` (lines 17-36) -/

/-- The local filename used for a GTEx sample, `f"{sample_id}.svs"`. -/
def svsName (sampleId : String) : String := sampleId ++ ".svs"

/-- Observable effects of the retriever other than directory writes: one
network fetch per downloaded id, and one `time.sleep` per downloaded id. -/
inductive Event where
  | fetch (sampleId : String)
  | delay (sampleId : String) (seconds : Nat)
deriving DecidableEq, Repr

/-- Embedding of `download_wsi_gtex(dataset_dir, sample_ids)`.  The directory is a list of
`(filename, contents)` pairs, the remote store a function from sample id to
the bytes `requests.get` returns.  For each id whose `.svs` file is not
already listed in the directory, the body fetches the bytes, writes the file
and sleeps `np.random.randint(60, 100)` seconds; ids whose file exists are
skipped entirely.  Returns the final directory and the event log. -/
def download_wsi_gtex (remote : String → String) :
    Nat → List (String × String) → List String →
    List (String × String) × List Event
  | _, dir, [] => (dir, [])
  | rng, dir, sid :: rest =>
    if svsName sid ∈ dir.map Prod.fst then
      download_wsi_gtex remote rng dir rest
    else
      let d := randint 60 100 rng
      let res := download_wsi_gtex remote (lcg rng)
        (dir ++ [(svsName sid, remote sid)]) rest
      (res.1, Event.fetch sid :: Event.delay sid d :: res.2)

end GTEx

namespace Histolab

/-! ### `src/histolab/data/_registry.py`

The Python dicts are embedded as association lists in the literal order of
the source file; lookups use `List.lookup`, whose first-match semantics
agrees with dict lookup because the literal keys are distinct. -/

def legacy_datasets : List String := ["cmu_small_region.svs"]

def registry : List (String × String) := [
  ("histolab/broken.svs", "b1325916876afa17ad5e02d2e7298ee883e758ed25369470d85bc0990e928e11"),
  ("histolab/kidney.png", "5c6dc1b9ae10a2865302d9c8eda360362ec47732cb3e9766c38ed90cb9f4c371"),
  ("data/cmu_small_region.svs", "ed92d5a9f2e86df67640d6f92ce3e231419ce127131697fbbce42ad5e002c8a7"),
  ("aperio/JP2K-33003-1.svs", "6205ccf75a8fa6c32df7c5c04b7377398971a490fb6b320d50d91f7ba6a0e6fd"),
  ("aperio/JP2K-33003-2.svs", "1a13cef86b55b51127cebd94a1f6069f7de494c98e3e708640d1ce7181d9e3fd"),
  ("tcga/breast/TCGA-A8-A082-01A-01-TS1.3cad4a77-47a6-4658-becf-d8cffa161d3a.svs", "e955f47b83c8a5ae382ff8559493548f90f85c17c86315dd03134c041f44df70"),
  ("tcga/breast/TCGA-A1-A0SH-01Z-00-DX1.90E71B08-E1D9-4FC2-85AC-062E56DDF17C.svs", "6de90fe92400e592839ab7f87c15d9924bc539c61ee3b3bc8ef044f98d16031b"),
  ("tcga/breast/31e248bf-ee24-4d18-bccb-47046fccb461", "95163831d9076bb5e5b21790933dee9535a3607ba35bd6ae425374a45ecb1ba6"),
  ("tcga/prostate/6b725022-f1d5-4672-8c6c-de8140345210", "305c80e28227b25fdd0cc24726da4cf038380b4326e25c6518ffe23051a25ac0"),
  ("tcga/ovarian/b777ec99-2811-4aa4-9568-13f68e380c86", "f8e5059a0c9f8c026cfb2613cddef6562f8cdbd5954580282e2afa41d2f86a8c"),
  ("9798433/?format=tif", "7db49ff9fc3f6022ae334cf019e94ef4450f7d4cf0d71783e0f6ea82965d3a52"),
  ("9798554/?format=tif", "8a4318ac713b4cf50c3314760da41ab7653e10e90531ecd0c787f1386857a4ef")]

def APERIO_REPO_URL : String :=
  "http://openslide.cs.cmu.edu/download/openslide-testdata/Aperio"

def TCGA_REPO_URL : String := "https://api.gdc.cancer.gov/data"

def IDR_REPO_URL : String :=
  "https://idr.openmicroscopy.org/webclient/render_image_download"

def registry_urls : List (String × String) := [
  ("histolab/broken.svs", "https://raw.githubusercontent.com/histolab/histolab/master/tests/fixtures/svs-images/broken.svs"),
  ("histolab/kidney.png", "https://user-images.githubusercontent.com/4196091/100275351-132cc880-2f60-11eb-8cc8-7a3bf3723260.png"),
  ("aperio/JP2K-33003-1.svs", APERIO_REPO_URL ++ "/JP2K-33003-1.svs"),
  ("aperio/JP2K-33003-2.svs", APERIO_REPO_URL ++ "/JP2K-33003-2.svs"),
  ("tcga/breast/TCGA-A8-A082-01A-01-TS1.3cad4a77-47a6-4658-becf-d8cffa161d3a.svs", TCGA_REPO_URL ++ "/ad9ed74a-2725-49e6-bf7a-ef100e299989"),
  ("tcga/breast/TCGA-A1-A0SH-01Z-00-DX1.90E71B08-E1D9-4FC2-85AC-062E56DDF17C.svs", TCGA_REPO_URL ++ "/3845b8bd-cbe0-49cf-a418-a8120f6c23db"),
  ("tcga/breast/31e248bf-ee24-4d18-bccb-47046fccb461", TCGA_REPO_URL ++ "/31e248bf-ee24-4d18-bccb-47046fccb461"),
  ("tcga/prostate/6b725022-f1d5-4672-8c6c-de8140345210", TCGA_REPO_URL ++ "/6b725022-f1d5-4672-8c6c-de8140345210"),
  ("tcga/ovarian/b777ec99-2811-4aa4-9568-13f68e380c86", TCGA_REPO_URL ++ "/b777ec99-2811-4aa4-9568-13f68e380c86"),
  ("9798433/?format=tif", IDR_REPO_URL ++ "/9798433/?format=tif"),
  ("9798554/?format=tif", IDR_REPO_URL ++ "/9798554/?format=tif")]

/-- Embedding of `legacy_registry = {("data/" + filename): registry["data/" + filename]
for filename in legacy_datasets}`.  In Python, `registry[...]` raises on a
missing key; the `getD ""` default is proved unreachable in the registry
consistency theorem. -/
def legacy_registry : List (String × String) :=
  legacy_datasets.map fun f =>
    ("data/" ++ f, (registry.lookup ("data/" ++ f)).getD "")

end Histolab

namespace GTEx

/-! ### Permutation and uniqueness infrastructure -/

theorem permuteBySeed_perm (seed : Nat) (l : List α) :
    List.Perm (permuteBySeed seed l) l := by
  have h1 : List.Perm (l.enum.insertionSort (keyRel seed)) l.enum :=
    List.perm_insertionSort _ _
  have h2 := h1.map Prod.snd
  rwa [List.enum_map_snd] at h2

theorem sortedUniques_perm_dedup [LinearOrder K] (l : List K) :
    List.Perm (sortedUniques l) l.dedup :=
  List.perm_insertionSort _ _

theorem sortedUniques_nodup [LinearOrder K] (l : List K) : (sortedUniques l).Nodup :=
  (sortedUniques_perm_dedup l).nodup_iff.mpr (List.nodup_dedup l)

theorem mem_sortedUniques [LinearOrder K] (l : List K) (a : K) :
    a ∈ sortedUniques l ↔ a ∈ l := by
  rw [(sortedUniques_perm_dedup l).mem_iff, List.mem_dedup]

theorem unique_patients_eq [LinearOrder K] [DecidableEq L] (dataset_df : List α)
    (patient_col : α → K) (label_col : α → L) :
    unique_patients dataset_df patient_col label_col
      = sortedUniques (dataset_df.map patient_col) := by
  simp [unique_patients, patient_with_labels, List.map_map, Function.comp_def]

theorem unique_patients_nodup [LinearOrder K] [DecidableEq L] (dataset_df : List α)
    (patient_col : α → K) (label_col : α → L) :
    (unique_patients dataset_df patient_col label_col).Nodup := by
  rw [unique_patients_eq]
  exact sortedUniques_nodup _

theorem mem_unique_patients [LinearOrder K] [DecidableEq L] (dataset_df : List α)
    (patient_col : α → K) (label_col : α → L) (r : α) (hr : r ∈ dataset_df) :
    patient_col r ∈ unique_patients dataset_df patient_col label_col := by
  rw [unique_patients_eq, mem_sortedUniques]
  exact List.mem_map_of_mem _ hr

theorem train_test_split_fst (ambient : Nat) (l : List α) (ts : ℚ) (rs : Option Nat) :
    (train_test_split ambient l ts rs).1
      = (permuteBySeed (rs.getD ambient) l).drop (ceilMulNat ts l.length) := rfl

theorem train_test_split_snd (ambient : Nat) (l : List α) (ts : ℚ) (rs : Option Nat) :
    (train_test_split ambient l ts rs).2
      = (permuteBySeed (rs.getD ambient) l).take (ceilMulNat ts l.length) := rfl

theorem train_test_split_cover (ambient : Nat) (l : List α) (ts : ℚ) (rs : Option Nat) :
    List.Perm ((train_test_split ambient l ts rs).2 ++ (train_test_split ambient l ts rs).1) l := by
  rw [train_test_split_fst, train_test_split_snd, List.take_append_drop]
  exact permuteBySeed_perm _ _

theorem train_test_split_not_both (ambient : Nat) (l : List α) (ts : ℚ)
    (rs : Option Nat) (a : α) (hl : l.Nodup)
    (h1 : a ∈ (train_test_split ambient l ts rs).1)
    (h2 : a ∈ (train_test_split ambient l ts rs).2) : False := by
  rw [train_test_split_fst] at h1
  rw [train_test_split_snd] at h2
  have hp : (permuteBySeed (rs.getD ambient) l).Nodup :=
    (permuteBySeed_perm (rs.getD ambient) l).nodup_iff.mpr hl
  exact List.disjoint_take_drop hp le_rfl h2 h1

theorem train_test_split_mem_iff (ambient : Nat) (l : List α) (ts : ℚ)
    (rs : Option Nat) (a : α) :
    (a ∈ (train_test_split ambient l ts rs).1 ∨ a ∈ (train_test_split ambient l ts rs).2)
      ↔ a ∈ l := by
  rw [or_comm, ← List.mem_append]
  exact (train_test_split_cover ambient l ts rs).mem_iff

theorem train_test_df_fst [LinearOrder K] [DecidableEq L] (ambient : Nat)
    (dataset_df : List α) (patient_col : α → K) (label_col : α → L)
    (test_size : ℚ) (seed : Nat) :
    (train_test_df_patient_wise ambient dataset_df patient_col label_col test_size seed).1
      = dataset_df.filter (fun r => decide (patient_col r ∈
          (patientPartition ambient dataset_df patient_col label_col test_size seed).1)) := rfl

theorem train_test_df_snd [LinearOrder K] [DecidableEq L] (ambient : Nat)
    (dataset_df : List α) (patient_col : α → K) (label_col : α → L)
    (test_size : ℚ) (seed : Nat) :
    (train_test_df_patient_wise ambient dataset_df patient_col label_col test_size seed).2
      = dataset_df.filter (fun r => decide (patient_col r ∈
          (patientPartition ambient dataset_df patient_col label_col test_size seed).2)) := rfl

/-- C1: for every input tile table, patient column, label column, test
fraction and seed, the two tables returned by `train_test_df_patient_wise`
have disjoint sets of patient identifiers: no patient id occurs in a row of
the train output and also in a row of the test output. -/
theorem train_test_patient_disjoint [LinearOrder K] [DecidableEq L] (ambient : Nat)
    (dataset_df : List α) (patient_col : α → K) (label_col : α → L)
    (test_size : ℚ) (seed : Nat) :
    ∀ r1 ∈ (train_test_df_patient_wise ambient dataset_df patient_col label_col test_size seed).1,
      ∀ r2 ∈ (train_test_df_patient_wise ambient dataset_df patient_col label_col test_size seed).2,
        patient_col r1 ≠ patient_col r2 := by
  intro r1 h1 r2 h2 heq
  rw [train_test_df_fst] at h1
  rw [train_test_df_snd] at h2
  have m1 := (List.mem_filter.mp h1).2
  have m2 := (List.mem_filter.mp h2).2
  rw [decide_eq_true_eq] at m1 m2
  rw [heq] at m1
  exact train_test_split_not_both ambient
    (unique_patients dataset_df patient_col label_col) test_size (some seed)
    (patient_col r2) (unique_patients_nodup dataset_df patient_col label_col) m1 m2

/-- C1 witness: a concrete four-row table split with seed 1234; a row of the
train output and a row of the test output carry different patient ids. -/
theorem train_test_patient_disjoint_witness :
    Row.patient ⟨1, 0, 10⟩ ≠ Row.patient ⟨2, 0, 20⟩ :=
  train_test_patient_disjoint 0
    ([⟨1, 0, 10⟩, ⟨2, 0, 20⟩, ⟨3, 1, 30⟩, ⟨4, 1, 40⟩] : List Row)
    Row.patient Row.label (mkRat 1 2) 1234
    ⟨1, 0, 10⟩ (by decide) ⟨2, 0, 20⟩ (by decide)

/-- C2: every row of the table passed to `train_test_df_patient_wise`
appears in exactly one of the two returned tables: for every row value, its
multiplicity in the train output plus its multiplicity in the test output
equals its multiplicity in the input, so no row is dropped from both outputs
and no row is duplicated into both. -/
theorem train_test_row_coverage [LinearOrder K] [DecidableEq L] [DecidableEq α]
    (ambient : Nat) (dataset_df : List α) (patient_col : α → K) (label_col : α → L)
    (test_size : ℚ) (seed : Nat) (r : α) :
    (train_test_df_patient_wise ambient dataset_df patient_col label_col test_size seed).1.count r
      + (train_test_df_patient_wise ambient dataset_df patient_col label_col test_size seed).2.count r
      = dataset_df.count r := by
  rw [train_test_df_fst, train_test_df_snd]
  by_cases hr : r ∈ dataset_df
  · have hup := mem_unique_patients dataset_df patient_col label_col r hr
    rcases (train_test_split_mem_iff ambient
        (unique_patients dataset_df patient_col label_col) test_size (some seed)
        (patient_col r)).mpr hup with hA | hB
    · have hnB : patient_col r ∉
          (patientPartition ambient dataset_df patient_col label_col test_size seed).2 :=
        fun hB => train_test_split_not_both ambient
          (unique_patients dataset_df patient_col label_col) test_size (some seed)
          (patient_col r) (unique_patients_nodup dataset_df patient_col label_col) hA hB
      rw [List.count_filter (p := fun x => decide (patient_col x ∈
        (patientPartition ambient dataset_df patient_col label_col test_size seed).1))
        (decide_eq_true hA)]
      have hz : (dataset_df.filter (fun x => decide (patient_col x ∈
          (patientPartition ambient dataset_df patient_col label_col test_size seed).2))).count r = 0 := by
        rw [List.count_eq_zero]
        intro hmem
        have := (List.mem_filter.mp hmem).2
        rw [decide_eq_true_eq] at this
        exact hnB this
      rw [hz]
      omega
    · have hnA : patient_col r ∉
          (patientPartition ambient dataset_df patient_col label_col test_size seed).1 :=
        fun hA => train_test_split_not_both ambient
          (unique_patients dataset_df patient_col label_col) test_size (some seed)
          (patient_col r) (unique_patients_nodup dataset_df patient_col label_col) hA hB
      rw [List.count_filter (p := fun x => decide (patient_col x ∈
        (patientPartition ambient dataset_df patient_col label_col test_size seed).2))
        (decide_eq_true hB)]
      have hz : (dataset_df.filter (fun x => decide (patient_col x ∈
          (patientPartition ambient dataset_df patient_col label_col test_size seed).1))).count r = 0 := by
        rw [List.count_eq_zero]
        intro hmem
        have := (List.mem_filter.mp hmem).2
        rw [decide_eq_true_eq] at this
        exact hnA this
      rw [hz]
      omega
  · have h1 : ∀ p : α → Bool, (dataset_df.filter p).count r = 0 := by
      intro p
      rw [List.count_eq_zero]
      intro hmem
      exact hr (List.mem_of_mem_filter hmem)
    rw [h1, h1, List.count_eq_zero.mpr hr]

/-- C3: `train_test_df_patient_wise` is deterministic in its seed: the
result does not depend on the ambient PRNG state of the process, only on the
input table, the column names, the test fraction and the explicit seed, so
two runs with the same seed and the same input produce identical train and
test tables. -/
theorem train_test_df_seed_deterministic [LinearOrder K] [DecidableEq L]
    (ambient1 ambient2 : Nat) (dataset_df : List α) (patient_col : α → K)
    (label_col : α → L) (test_size : ℚ) (seed : Nat) :
    train_test_df_patient_wise ambient1 dataset_df patient_col label_col test_size seed
      = train_test_df_patient_wise ambient2 dataset_df patient_col label_col test_size seed := rfl

end GTEx

namespace GTEx

/-- The patient partition depends only on the patient column: two tables
with the same patient column receive identical partitions, whatever their
label columns.  This follows from the source alone: `train_test_split` at
lines 119-121 receives only `unique_patients` and the seed. -/
theorem patientPartition_eq_of_map_eq [LinearOrder K] [DecidableEq L] [DecidableEq M]
    (ambient : Nat) (df1 : List α) (df2 : List β) (pc1 : α → K) (pc2 : β → K)
    (lc1 : α → L) (lc2 : β → M) (ts : ℚ) (seed : Nat)
    (h : df1.map pc1 = df2.map pc2) :
    patientPartition ambient df1 pc1 lc1 ts seed
      = patientPartition ambient df2 pc2 lc2 ts seed := by
  unfold patientPartition
  rw [unique_patients_eq, unique_patients_eq, h]

/-- Shape of the test side of the patient partition, for every
seed-determined permutation the PRNG model could produce: it is
duplicate-free, drawn from the unique patients, and has exactly
`min ⌈ts·n⌉ n` members, `n` being the number of unique patients. -/
theorem patientPartition_test_shape [LinearOrder K] [DecidableEq L] (ambient : Nat)
    (dataset_df : List α) (patient_col : α → K) (label_col : α → L)
    (test_size : ℚ) (seed : Nat) :
    (patientPartition ambient dataset_df patient_col label_col test_size seed).2.Nodup
    ∧ (∀ a ∈ (patientPartition ambient dataset_df patient_col label_col test_size seed).2,
        a ∈ unique_patients dataset_df patient_col label_col)
    ∧ (patientPartition ambient dataset_df patient_col label_col test_size seed).2.length
        = min (ceilMulNat test_size (unique_patients dataset_df patient_col label_col).length)
            (unique_patients dataset_df patient_col label_col).length := by
  have hperm := permuteBySeed_perm ((some seed).getD ambient)
    (unique_patients dataset_df patient_col label_col)
  have hp : (permuteBySeed ((some seed).getD ambient)
      (unique_patients dataset_df patient_col label_col)).Nodup :=
    hperm.nodup_iff.mpr (unique_patients_nodup dataset_df patient_col label_col)
  have hsnd := train_test_split_snd ambient
    (unique_patients dataset_df patient_col label_col) test_size (some seed)
  unfold patientPartition
  refine ⟨?_, ?_, ?_⟩
  · rw [hsnd]
    exact hp.sublist (List.take_sublist _ _)
  · intro a ha
    rw [hsnd] at ha
    exact hperm.mem_iff.mp (List.mem_of_mem_take ha)
  · rw [hsnd, List.length_take, hperm.length_eq]

/-- No two distinct patients of 1,2,3,4 can form a test group satisfying
the per-stratum test share for all three label pairings of `rowsStrataA`,
`rowsStrataB` and `rowsStrataC` at test fraction 1/2: the three
stratification constraints have no common two-element solution.  This is
pure label arithmetic, independent of any PRNG. -/
theorem two_of_four_not_all_stratified :
    ∀ a ∈ ([1, 2, 3, 4] : List Nat), ∀ b ∈ ([1, 2, 3, 4] : List Nat), a ≠ b →
      ¬(stratified_test_ok rowsStrataA Row.patient Row.label [a, b] (mkRat 1 2)
        ∧ stratified_test_ok rowsStrataB Row.patient Row.label [a, b] (mkRat 1 2)
        ∧ stratified_test_ok rowsStrataC Row.patient Row.label [a, b] (mkRat 1 2)) := by
  decide

/-- C4 (amended): the splitter always partitions the unique patient
identifiers with a plain, non-stratified seeded random split over patients:
the partition depends only on the patient column (the per-patient label
lists grouped at lines 114-116 never influence it), the split always
terminates, and the train and test patient groups are disjoint and together
cover the unique patients. -/
theorem patient_split_plain_random [LinearOrder K] [DecidableEq L] [DecidableEq M]
    (ambient : Nat) (df1 : List α) (df2 : List β) (pc1 : α → K) (pc2 : β → K)
    (lc1 : α → L) (lc2 : β → M) (ts : ℚ) (seed : Nat)
    (h : df1.map pc1 = df2.map pc2) :
    patientPartition ambient df1 pc1 lc1 ts seed = patientPartition ambient df2 pc2 lc2 ts seed
    ∧ List.Disjoint (patientPartition ambient df1 pc1 lc1 ts seed).1
        (patientPartition ambient df1 pc1 lc1 ts seed).2
    ∧ List.Perm ((patientPartition ambient df1 pc1 lc1 ts seed).2
        ++ (patientPartition ambient df1 pc1 lc1 ts seed).1)
        (unique_patients df1 pc1 lc1) := by
  refine ⟨patientPartition_eq_of_map_eq ambient df1 df2 pc1 pc2 lc1 lc2 ts seed h, ?_, ?_⟩
  · intro a h1 h2
    exact train_test_split_not_both ambient (unique_patients df1 pc1 lc1) ts (some seed) a
      (unique_patients_nodup df1 pc1 lc1) h1 h2
  · exact train_test_split_cover ambient (unique_patients df1 pc1 lc1) ts (some seed)

/-- C4 witness: two concrete tables with the same patient column but
entirely different label columns receive the same patient partition. -/
theorem patient_split_plain_random_witness :
    patientPartition 0 ([⟨1, 1, 0⟩, ⟨2, 0, 0⟩, ⟨3, 1, 0⟩, ⟨4, 0, 0⟩] : List Row)
        Row.patient Row.label (mkRat 1 2) 1234
      = patientPartition 0 ([⟨1, 5, 7⟩, ⟨2, 5, 7⟩, ⟨3, 5, 7⟩, ⟨4, 5, 7⟩] : List Row)
        Row.patient Row.tile (mkRat 1 2) 1234 :=
  (patient_split_plain_random 0 _ _ Row.patient Row.patient Row.label Row.tile
    (mkRat 1 2) 1234 (by decide)).1

/-- C4 counterexample: the three tables `rowsStrataA`, `rowsStrataB` and
`rowsStrataC` share the patient column 1,2,3,4 but pair the patients into
the label strata { 1, 2 } / { 3, 4 }, { 1, 3 } / { 2, 4 } and
{ 1, 4 } / { 2, 3 }; every stratum has two patients, so with test fraction
1/2 a stratified split keyed by the labels would put exactly one patient of
each stratum into the test group, and no shortage of patients or strata
invokes the claimed fallback.  Because `train_test_split` receives no
labels, the code computes one and the same two-element test group for all
three tables — and no two-element subset of four patients satisfies all
three stratifications at once.  The proof uses only the permutation shape
and label independence of the split, never the concrete order of the
modelled PRNG, so the conclusion holds for every permutation the real
seeded PRNG could draw: on at least one of these three concrete inputs the
program violates the stratified-split property. -/
theorem patient_split_not_stratified_cex :
    strataOf rowsStrataA Row.patient Row.label = [[1, 2], [3, 4]]
    ∧ strataOf rowsStrataB Row.patient Row.label = [[1, 3], [2, 4]]
    ∧ strataOf rowsStrataC Row.patient Row.label = [[2, 3], [1, 4]]
    ∧ patientPartition 0 rowsStrataA Row.patient Row.label (mkRat 1 2) 1234
        = patientPartition 0 rowsStrataB Row.patient Row.label (mkRat 1 2) 1234
    ∧ patientPartition 0 rowsStrataB Row.patient Row.label (mkRat 1 2) 1234
        = patientPartition 0 rowsStrataC Row.patient Row.label (mkRat 1 2) 1234
    ∧ ¬(stratified_test_ok rowsStrataA Row.patient Row.label
          (patientPartition 0 rowsStrataA Row.patient Row.label (mkRat 1 2) 1234).2 (mkRat 1 2)
        ∧ stratified_test_ok rowsStrataB Row.patient Row.label
          (patientPartition 0 rowsStrataB Row.patient Row.label (mkRat 1 2) 1234).2 (mkRat 1 2)
        ∧ stratified_test_ok rowsStrataC Row.patient Row.label
          (patientPartition 0 rowsStrataC Row.patient Row.label (mkRat 1 2) 1234).2 (mkRat 1 2)) := by
  have hAB : patientPartition 0 rowsStrataA Row.patient Row.label (mkRat 1 2) 1234
      = patientPartition 0 rowsStrataB Row.patient Row.label (mkRat 1 2) 1234 :=
    patientPartition_eq_of_map_eq 0 rowsStrataA rowsStrataB Row.patient Row.patient
      Row.label Row.label (mkRat 1 2) 1234 (by decide)
  have hBC : patientPartition 0 rowsStrataB Row.patient Row.label (mkRat 1 2) 1234
      = patientPartition 0 rowsStrataC Row.patient Row.label (mkRat 1 2) 1234 :=
    patientPartition_eq_of_map_eq 0 rowsStrataB rowsStrataC Row.patient Row.patient
      Row.label Row.label (mkRat 1 2) 1234 (by decide)
  refine ⟨by decide, by decide, by decide, hAB, hBC, ?_⟩
  rintro ⟨hA, hB, hC⟩
  rw [← hAB] at hB
  rw [← hBC, ← hAB] at hC
  obtain ⟨hnd, hsub, hlen⟩ :=
    patientPartition_test_shape 0 rowsStrataA Row.patient Row.label (mkRat 1 2) 1234
  have hup : unique_patients rowsStrataA Row.patient Row.label = [1, 2, 3, 4] := by decide
  rw [hup] at hsub hlen
  have hlen2 : (patientPartition 0 rowsStrataA Row.patient Row.label (mkRat 1 2) 1234).2.length
      = 2 := by
    rw [hlen]
    decide
  obtain ⟨a, b, htp⟩ := List.length_eq_two.mp hlen2
  rw [htp] at hnd hsub hA hB hC
  have hne : a ≠ b := by
    have := List.nodup_cons.mp hnd
    simpa using this.1
  exact two_of_four_not_all_stratified a (hsub a (by simp)) b (hsub b (by simp)) hne ⟨hA, hB, hC⟩

end GTEx

namespace GTEx

/-- Every row of the joined table comes from a metadata row, and its tile
filename, when present, is a tile of the directory whose derived sample id
is exactly the sample id of that metadata row. -/
theorem joinTiles_meta_and_tile (metadata : List MetaRow) (tiles : List String)
    (j : JoinedRow) (hj : j ∈ joinTiles metadata tiles) :
    j.meta ∈ metadata ∧ ∀ t : String, j.tile_filename = some t →
      t ∈ tiles ∧ deriveSampleId t = j.meta.sampleId := by
  unfold joinTiles at hj
  rcases List.mem_flatMap.mp hj with ⟨m, hm, hbranch⟩
  rcases hfil : tiles.filter (fun t => decide (deriveSampleId t = m.sampleId)) with _ | ⟨t0, ts⟩
  · rw [hfil] at hbranch
    simp only [List.mem_singleton] at hbranch
    subst hbranch
    exact ⟨hm, fun t ht => by simp at ht⟩
  · rw [hfil] at hbranch
    simp only [List.mem_map] at hbranch
    rcases hbranch with ⟨t, htmem, hteq⟩
    subst hteq
    refine ⟨hm, fun t2 ht2 => ?_⟩
    simp only [Option.some.injEq] at ht2
    subst ht2
    have : t ∈ tiles.filter (fun t => decide (deriveSampleId t = m.sampleId)) := by
      rw [hfil]; exact htmem
    have hf := List.mem_filter.mp this
    exact ⟨hf.1, decide_eq_true_eq.mp hf.2⟩

/-- C5 (amended): in the metadata join of `split_tiles_patient_wise`, a tile
file whose derived sample id matches no metadata row is silently dropped by
the metadata-left join: it occurs neither in the joined table nor in either
output table, and the function returns no report of the inconsistency (the
outputs are just the two tables). -/
theorem orphan_tile_silently_dropped (ambient : Nat) (files : List String)
    (metadata : List MetaRow) (test_size : ℚ) (seed : Nat) (t : String)
    (h : ∀ m ∈ metadata, m.sampleId ≠ deriveSampleId t) :
    (∀ j ∈ joinTiles metadata (tilesFilenames files), j.tile_filename ≠ some t)
    ∧ (∀ j ∈ (split_tiles_patient_wise ambient files metadata test_size seed).1,
        j.tile_filename ≠ some t)
    ∧ (∀ j ∈ (split_tiles_patient_wise ambient files metadata test_size seed).2,
        j.tile_filename ≠ some t) := by
  have key : ∀ j ∈ joinTiles metadata (tilesFilenames files), j.tile_filename ≠ some t := by
    intro j hj hsome
    rcases joinTiles_meta_and_tile metadata (tilesFilenames files) j hj with ⟨hm, htile⟩
    rcases htile t hsome with ⟨-, hid⟩
    exact h j.meta hm hid.symm
  exact ⟨key, fun j hj => key j (List.mem_of_mem_filter hj),
    fun j hj => key j (List.mem_of_mem_filter hj)⟩

/-- C5 witness: in the concrete one-row metadata table, the only joined row
does not carry the orphan tile. -/
theorem orphan_tile_silently_dropped_witness :
    (⟨⟨"S1", "P1", "T1"⟩, some "S1_0.png"⟩ : JoinedRow).tile_filename ≠ some "S2_0.png" :=
  (orphan_tile_silently_dropped 0 ["S1_0.png", "S2_0.png"] [⟨"S1", "P1", "T1"⟩]
    (mkRat 1 2) 1234 "S2_0.png" (by decide)).1
    ⟨⟨"S1", "P1", "T1"⟩, some "S1_0.png"⟩ (by decide)

/-- C5 counterexample: metadata listing only sample "S1" while the tile
directory holds "S1_0.png" and "S2_0.png".  The orphan "S2_0.png" passes
the extension filter and derives sample id "S2", yet the joined table is
exactly the single matched row: the orphan is silently dropped, not
surfaced, contradicting the claim. -/
theorem metadata_join_drops_orphan_cex :
    "S2_0.png" ∈ tilesFilenames ["S1_0.png", "S2_0.png"]
    ∧ deriveSampleId "S2_0.png" = "S2"
    ∧ joinTiles [⟨"S1", "P1", "T1"⟩] (tilesFilenames ["S1_0.png", "S2_0.png"])
        = [⟨⟨"S1", "P1", "T1"⟩, some "S1_0.png"⟩] := by decide

/-- A `takeWhile` runs through a block that wholly satisfies the predicate and
stops at the first failing element. -/
theorem takeWhile_append_stop (p : α → Bool) (l1 l2 : List α) (x : α)
    (h1 : ∀ a ∈ l1, p a = true) (hx : p x = false) :
    (l1 ++ x :: l2).takeWhile p = l1 := by
  induction l1 with
  | nil => simp [List.takeWhile_cons, hx]
  | cons a as ih =>
    have ha : p a = true := h1 a (List.mem_cons_self a as)
    rw [List.cons_append, List.takeWhile_cons, ha]
    simp only [if_true]
    rw [ih fun b hb => h1 b (List.mem_cons_of_mem a hb)]

/-- C6 (amended): the round trip of the filename-encodes-identity convention
holds for every slide whose base name does not itself contain the separator:
the substring of any of its tile filenames before the first underscore is
exactly the slide name (the sample id).  The companion counterexample shows
the unrestricted claim fails when the name contains the separator. -/
theorem tile_filename_roundtrip (slideName suffix : String)
    (h : '_' ∉ slideName.data) :
    deriveSampleId (tileFilename slideName suffix) = slideName := by
  unfold deriveSampleId tileFilename tileStem
  have hdata : ((slideName ++ "_") ++ suffix).data = slideName.data ++ '_' :: suffix.data := by
    rw [String.data_append, String.data_append]
    simp
  rw [hdata, takeWhile_append_stop (fun c => decide (c ≠ '_')) slideName.data suffix.data '_'
    (fun a ha => decide_eq_true fun hEq => h (hEq ▸ ha)) (by decide)]

/-- C6 witness: a realistic GTEx sample id (no underscore) rounds back
through tile naming and the split-derivation. -/
theorem tile_filename_roundtrip_witness :
    deriveSampleId (tileFilename "GTEX-1117F-0126" "tile0level2.png") = "GTEX-1117F-0126" :=
  tile_filename_roundtrip "GTEX-1117F-0126" "tile0level2.png" (by decide)

/-- C6 counterexample: a slide whose base name contains the separator: the
tile filename splits back to a strict prefix of the name, so the derivation
does not recover the sample id of the source slide. -/
theorem tile_filename_roundtrip_cex :
    deriveSampleId (tileFilename "GTEX_A" "tile0.png") = "GTEX"
    ∧ "GTEX" ≠ "GTEX_A" := by decide

end GTEx

namespace GTEx

/-- A lookup whose key already occurs among the keys of the first block is
unaffected by entries appended after it. -/
theorem lookup_append_of_mem_keys (l1 l2 : List (String × String)) (k : String)
    (h : k ∈ l1.map Prod.fst) : (l1 ++ l2).lookup k = l1.lookup k := by
  induction l1 with
  | nil => simp at h
  | cons a as ih =>
    rcases a with ⟨k0, v0⟩
    rw [List.cons_append]
    by_cases hk : k = k0
    · subst hk
      simp [List.lookup]
    · have hk2 : (k == k0) = false := beq_eq_false_iff_ne.mpr hk
      simp only [List.lookup, hk2]
      apply ih
      simp only [List.map_cons, List.mem_cons] at h
      rcases h with h | h
      · exact absurd h hk
      · exact h

/-- C7: for every sample id in the list given to `download_wsi_gtex`, if a
file named `{id}.svs` already exists in the target directory, the retriever
issues no network fetch for that id, performs no delay for it, and leaves
the contents of the existing file unchanged. -/
theorem download_skips_existing (remote : String → String) (rng : Nat)
    (dir : List (String × String)) (sample_ids : List String) (sid : String)
    (h : svsName sid ∈ dir.map Prod.fst) :
    (download_wsi_gtex remote rng dir sample_ids).1.lookup (svsName sid)
        = dir.lookup (svsName sid)
    ∧ Event.fetch sid ∉ (download_wsi_gtex remote rng dir sample_ids).2
    ∧ ∀ d : Nat, Event.delay sid d ∉ (download_wsi_gtex remote rng dir sample_ids).2 := by
  induction sample_ids generalizing rng dir with
  | nil =>
    exact ⟨rfl, by simp [download_wsi_gtex], fun d => by simp [download_wsi_gtex]⟩
  | cons s rest ih =>
    by_cases hs : svsName s ∈ dir.map Prod.fst
    · simp only [download_wsi_gtex]
      rw [if_pos hs]
      exact ih rng dir h
    · have hsid : sid ≠ s := fun hEq => hs (hEq ▸ h)
      have h2 : svsName sid ∈ (dir ++ [(svsName s, remote s)]).map Prod.fst := by
        rw [List.map_append]
        exact List.mem_append_left _ h
      have hrec := ih (lcg rng) (dir ++ [(svsName s, remote s)]) h2
      simp only [download_wsi_gtex]
      rw [if_neg hs]
      refine ⟨?_, ?_, ?_⟩
      · rw [hrec.1]
        exact lookup_append_of_mem_keys dir [(svsName s, remote s)] (svsName sid) h
      · intro hmem
        simp only [List.mem_cons] at hmem
        rcases hmem with h1 | h1 | h1
        · injection h1 with h1a
          exact hsid h1a
        · cases h1
        · exact hrec.2.1 h1
      · intro d hmem
        simp only [List.mem_cons] at hmem
        rcases hmem with h1 | h1 | h1
        · cases h1
        · injection h1 with h1a h1b
          exact hsid h1a
        · exact hrec.2.2 d h1

/-- C7 witness: with `a.svs` already present, a concrete run fetches only
`b`, leaves the stored contents of `a.svs` unchanged and logs no fetch and
no delay for `a`. -/
theorem download_skips_existing_witness :
    (download_wsi_gtex (fun _ => "bytes") 0 [("a.svs", "old")] ["a", "b"]).1.lookup (svsName "a")
        = [("a.svs", "old")].lookup (svsName "a")
    ∧ Event.fetch "a" ∉ (download_wsi_gtex (fun _ => "bytes") 0 [("a.svs", "old")] ["a", "b"]).2
    ∧ Event.delay "a" 60 ∉ (download_wsi_gtex (fun _ => "bytes") 0 [("a.svs", "old")] ["a", "b"]).2 :=
  ⟨(download_skips_existing (fun _ => "bytes") 0 [("a.svs", "old")] ["a", "b"] "a" (by decide)).1,
   (download_skips_existing (fun _ => "bytes") 0 [("a.svs", "old")] ["a", "b"] "a" (by decide)).2.1,
   (download_skips_existing (fun _ => "bytes") 0 [("a.svs", "old")] ["a", "b"] "a" (by decide)).2.2 60⟩

/-- C8: every delay drawn by `download_wsi_gtex` between fetches lies in the
inclusive range 60 to 100 (the draw `np.random.randint(60, 100)` is in fact
always at most 99, hence at most 100). -/
theorem download_delay_in_bounds (remote : String → String) (rng : Nat)
    (dir : List (String × String)) (sample_ids : List String) :
    ∀ (sid : String) (d : Nat),
      Event.delay sid d ∈ (download_wsi_gtex remote rng dir sample_ids).2 →
        60 ≤ d ∧ d ≤ 100 := by
  induction sample_ids generalizing rng dir with
  | nil =>
    intro sid d hmem
    simp [download_wsi_gtex] at hmem
  | cons s rest ih =>
    intro sid d hmem
    by_cases hs : svsName s ∈ dir.map Prod.fst
    · simp only [download_wsi_gtex] at hmem
      rw [if_pos hs] at hmem
      exact ih rng dir sid d hmem
    · simp only [download_wsi_gtex] at hmem
      rw [if_neg hs] at hmem
      simp only [List.mem_cons] at hmem
      rcases hmem with h1 | h1 | h1
      · cases h1
      · injection h1 with h1a h1b
        subst h1b
        unfold randint
        omega
      · exact ih (lcg rng) (dir ++ [(svsName s, remote s)]) sid d h1

/-- C8 witness: a concrete run on an empty directory draws the delay 60 for
sample `a`, which the theorem bounds inside [60, 100]. -/
theorem download_delay_in_bounds_witness :
    Event.delay "a" 60 ∈ (download_wsi_gtex (fun _ => "x") 0 [] ["a"]).2
    ∧ (60 ≤ 60 ∧ 60 ≤ 100) :=
  ⟨by decide, download_delay_in_bounds (fun _ => "x") 0 [] ["a"] "a" 60 (by decide)⟩

end GTEx

namespace GTEx

/-- Multiplicity of a given metadata row among the joined rows: once per
occurrence when it matches no tile, and once per occurrence per matching
tile otherwise. -/
theorem joinTiles_countP (metadata : List MetaRow) (tiles : List String) (m : MetaRow) :
    ((joinTiles metadata tiles).countP fun j => decide (j.meta = m))
      = metadata.count m
        * max 1 (tiles.filter fun t => decide (deriveSampleId t = m.sampleId)).length := by
  induction metadata with
  | nil => simp [joinTiles]
  | cons m0 rest ih =>
    have hcons : joinTiles (m0 :: rest) tiles
        = (match tiles.filter (fun t => decide (deriveSampleId t = m0.sampleId)) with
           | [] => [(⟨m0, none⟩ : JoinedRow)]
           | ts => ts.map fun t => ⟨m0, some t⟩) ++ joinTiles rest tiles := by
      rw [joinTiles, List.flatMap_cons]
      rfl
    rw [hcons, List.countP_append, ih]
    by_cases hm : m0 = m
    · subst hm
      rcases hfil : tiles.filter (fun t => decide (deriveSampleId t = m0.sampleId))
        with _ | ⟨t0, ts⟩
      · simp [List.count_cons_self]
        omega
      · simp only [List.countP_map, List.count_cons_self, List.length_cons]
        have hmax : max 1 (ts.length + 1) = ts.length + 1 :=
          Nat.max_eq_right (Nat.succ_le_succ (Nat.zero_le _))
        rw [hmax]
        have hconst : (List.countP ((fun j => decide (JoinedRow.meta j = m0))
            ∘ fun t => (⟨m0, some t⟩ : JoinedRow)) (t0 :: ts)) = (t0 :: ts).length := by
          rw [List.countP_eq_length]
          intro t ht
          simp [Function.comp]
        have hconst2 := hconst
        rw [List.length_cons] at hconst2
        rw [hconst2]
        ring
    · have hb : (List.countP (fun j => decide (j.meta = m))
          (match tiles.filter (fun t => decide (deriveSampleId t = m0.sampleId)) with
           | [] => [(⟨m0, none⟩ : JoinedRow)]
           | ts => ts.map fun t => ⟨m0, some t⟩)) = 0 := by
        rcases hfil : tiles.filter (fun t => decide (deriveSampleId t = m0.sampleId))
          with _ | ⟨t0, ts⟩
        · simp [hm]
        · simp [List.countP_map, Function.comp, hm]
      rw [hb, List.count_cons_of_ne (fun hEq => hm hEq.symm)]
      omega

/-- A metadata row matching no tile is joined once with a null filename. -/
theorem mem_joinTiles_none (metadata : List MetaRow) (tiles : List String) (m : MetaRow)
    (hm : m ∈ metadata)
    (hF : tiles.filter (fun t => decide (deriveSampleId t = m.sampleId)) = []) :
    (⟨m, none⟩ : JoinedRow) ∈ joinTiles metadata tiles := by
  unfold joinTiles
  refine List.mem_flatMap.mpr ⟨m, hm, ?_⟩
  rw [hF]
  simp

/-- A metadata row is joined with every tile whose derived sample id is its
sample id. -/
theorem mem_joinTiles_some (metadata : List MetaRow) (tiles : List String) (m : MetaRow)
    (hm : m ∈ metadata) (t : String)
    (ht : t ∈ tiles.filter (fun t => decide (deriveSampleId t = m.sampleId))) :
    (⟨m, some t⟩ : JoinedRow) ∈ joinTiles metadata tiles := by
  unfold joinTiles
  refine List.mem_flatMap.mpr ⟨m, hm, ?_⟩
  rcases hfil : tiles.filter (fun t => decide (deriveSampleId t = m.sampleId))
    with _ | ⟨t0, ts⟩
  · rw [hfil] at ht
    cases ht
  · rw [hfil] at ht
    simp only [List.mem_map]
    exact ⟨t, ht, rfl⟩

/-- Every row of the input lands in the train output or in the test output
of the patient-wise split. -/
theorem mem_train_or_test [LinearOrder K] [DecidableEq L] (ambient : Nat)
    (dataset_df : List α) (patient_col : α → K) (label_col : α → L)
    (test_size : ℚ) (seed : Nat) (r : α) (hr : r ∈ dataset_df) :
    r ∈ (train_test_df_patient_wise ambient dataset_df patient_col label_col test_size seed).1
    ∨ r ∈ (train_test_df_patient_wise ambient dataset_df patient_col label_col test_size seed).2 := by
  rcases (train_test_split_mem_iff ambient (unique_patients dataset_df patient_col label_col)
      test_size (some seed) (patient_col r)).mpr
      (mem_unique_patients dataset_df patient_col label_col r hr) with hA | hB
  · left
    rw [train_test_df_fst]
    exact List.mem_filter.mpr ⟨hr, decide_eq_true hA⟩
  · right
    rw [train_test_df_snd]
    exact List.mem_filter.mpr ⟨hr, decide_eq_true hB⟩

/-- C9: the join of `split_tiles_patient_wise` is metadata-left keyed on the
sample-id column: an input metadata row whose sample id matches no tile file
is kept, joined once (per occurrence) with a null `tile_filename`, and is
still emitted into one of the two output tables; a metadata row matching `k`
tile files is duplicated into `k` joined rows, one per matching tile. -/
theorem metadata_left_join_semantics (ambient : Nat) (files : List String)
    (metadata : List MetaRow) (test_size : ℚ) (seed : Nat) (m : MetaRow)
    (hm : m ∈ metadata) :
    ((joinTiles metadata (tilesFilenames files)).countP fun j => decide (j.meta = m))
      = metadata.count m
        * max 1 ((tilesFilenames files).filter fun t => decide (deriveSampleId t = m.sampleId)).length
    ∧ (((tilesFilenames files).filter fun t => decide (deriveSampleId t = m.sampleId)) = []
        → (⟨m, none⟩ : JoinedRow) ∈ joinTiles metadata (tilesFilenames files)
          ∧ ((⟨m, none⟩ : JoinedRow)
                ∈ (split_tiles_patient_wise ambient files metadata test_size seed).1
              ∨ (⟨m, none⟩ : JoinedRow)
                ∈ (split_tiles_patient_wise ambient files metadata test_size seed).2))
    ∧ ∀ t ∈ (tilesFilenames files).filter fun t => decide (deriveSampleId t = m.sampleId),
        (⟨m, some t⟩ : JoinedRow) ∈ joinTiles metadata (tilesFilenames files) := by
  refine ⟨joinTiles_countP metadata (tilesFilenames files) m, fun hF => ?_, fun t ht =>
    mem_joinTiles_some metadata (tilesFilenames files) m hm t ht⟩
  have hj := mem_joinTiles_none metadata (tilesFilenames files) m hm hF
  exact ⟨hj, mem_train_or_test ambient (joinTiles metadata (tilesFilenames files))
    (fun j => j.meta.subjectId) (fun j => j.meta.tissue) test_size seed ⟨m, none⟩ hj⟩

/-- C9 witness: with an empty tile directory, the single metadata row is
joined exactly once, with a null tile filename. -/
theorem metadata_left_join_semantics_witness :
    ((joinTiles [⟨"S1", "P1", "T1"⟩] (tilesFilenames [])).countP
        fun j => decide (j.meta = (⟨"S1", "P1", "T1"⟩ : MetaRow))) = 1
    ∧ (⟨⟨"S1", "P1", "T1"⟩, none⟩ : JoinedRow)
        ∈ joinTiles [⟨"S1", "P1", "T1"⟩] (tilesFilenames []) :=
  ⟨(metadata_left_join_semantics 0 [] [⟨"S1", "P1", "T1"⟩] (mkRat 1 2) 1234
      ⟨"S1", "P1", "T1"⟩ (by decide)).1,
   ((metadata_left_join_semantics 0 [] [⟨"S1", "P1", "T1"⟩] (mkRat 1 2) 1234
      ⟨"S1", "P1", "T1"⟩ (by decide)).2.1 (by decide)).1⟩

end GTEx

/-- C10: registry consistency: every key of `registry_urls` is also a key of
`registry` (every downloadable datafile has a SHA256 hash), and for every
filename in `legacy_datasets`, `legacy_registry` maps `"data/" ++ filename`
to exactly the hash `registry` holds for that key (which exists). -/
theorem registry_consistent :
    (∀ k ∈ Histolab.registry_urls.map Prod.fst, k ∈ Histolab.registry.map Prod.fst)
    ∧ ∀ f ∈ Histolab.legacy_datasets,
        (Histolab.registry.lookup ("data/" ++ f)).isSome = true
        ∧ Histolab.legacy_registry.lookup ("data/" ++ f)
            = Histolab.registry.lookup ("data/" ++ f) := by decide

/-- C10 witness: the consistency facts at concrete keys: a sample
`registry_urls` key is a `registry` key, and the single legacy dataset has
an existing hash reproduced by `legacy_registry`. -/
theorem registry_consistent_witness :
    "histolab/broken.svs" ∈ Histolab.registry.map Prod.fst
    ∧ (Histolab.registry.lookup ("data/" ++ "cmu_small_region.svs")).isSome = true
    ∧ Histolab.legacy_registry.lookup ("data/" ++ "cmu_small_region.svs")
        = Histolab.registry.lookup ("data/" ++ "cmu_small_region.svs") :=
  ⟨registry_consistent.1 "histolab/broken.svs" (by decide),
   (registry_consistent.2 "cmu_small_region.svs" (by decide)).1,
   (registry_consistent.2 "cmu_small_region.svs" (by decide)).2⟩
